import Mathlib

/-!
Verification of the Pakistani-law RAG pipeline against its specification.

Strings are modelled as `List Char` (`Str`); Python's whitespace class is
modelled over the ASCII whitespace characters.  Text processing functions
(`text_chunker.py`, `pdf_processor.py`) are translated function by function.
External collaborators (the tiktoken tokenizer, the Gemini embedding service,
the ChromaDB storage engine) are not part of the repository: the tokenizer and
the embedding service are passed as explicit function parameters, and the
storage engine is modelled from the spec's logical contract for the Retrieval
Index (insert-with-overwrite, filtered nearest-neighbour query, count).
-/

abbrev Str := List Char

/-- Python `\s` (ASCII range): space, tab, newline, carriage return,
vertical tab, form feed. -/
def isWS (c : Char) : Bool :=
  c == ' ' || c == '\t' || c == '\n' || c == '\r' || c == Char.ofNat 11 || c == Char.ofNat 12

/-- Sentence terminators used by `TextChunker.split_text_by_sentences`
(the regex class `[.!?]`). -/
def isTerm (c : Char) : Bool :=
  c == '.' || c == '!' || c == '?'

/-- Python `str.strip()`: remove leading and trailing whitespace. -/
def pyStrip (s : Str) : Str :=
  ((s.dropWhile isWS).reverse.dropWhile isWS).reverse

/-- Remove all whitespace characters (used to state "equal modulo
whitespace"). -/
def scrubWS (s : Str) : Str := s.filter (fun c => !isWS c)

/-- Remove all whitespace characters and sentence terminators (used to state
"equal modulo whitespace and sentence-terminator normalization"). -/
def scrub (s : Str) : Str := s.filter (fun c => !(isWS c || isTerm c))

/-- Python `re.split(r'[.!?]+', text)`: split on maximal runs of sentence
terminators.  A run of terminators produces a single boundary, and boundary
segments at the ends of the string are kept (possibly empty), exactly as
`re.split` does. -/
def splitTerms : Str → List Str
  | [] => [[]]
  | c :: cs =>
    if isTerm c then
      match cs with
      | [] => [[], []]
      | d :: _ => if isTerm d then splitTerms cs else [] :: splitTerms cs
    else
      match splitTerms cs with
      | [] => [[c]]
      | s :: rest => (c :: s) :: rest

/-- Model of `TextChunker.split_text_by_sentences`, first two lines: split by
sentences, strip each piece, drop empty pieces. -/
def sentencesOf (text : Str) : List Str :=
  ((splitTerms text).map pyStrip).filter (fun s => !s.isEmpty)

/-- The greedy sentence-packing loop of `TextChunker.split_text_by_sentences`:
`current` is `current_chunk`; a sentence is appended to the current chunk when
the token count of the tentative chunk stays within `size`, otherwise the
current chunk is closed (stripped) and the sentence starts a new chunk.
`ct` is the token counter (`TextChunker.count_tokens`, a tiktoken call in the
source, kept as an explicit parameter since the tokenizer is an external
library). -/
def packLoop (ct : Str → Nat) (size : Nat) (current : Str) : List Str → List Str
  | [] => if current.isEmpty then [] else [pyStrip current]
  | s :: rest =>
    let test := if current.isEmpty then s else current ++ ' ' :: s
    if ct test ≤ size then packLoop ct size test rest
    else (if current.isEmpty then [] else [pyStrip current]) ++ packLoop ct size s rest

/-- Model of `TextChunker.split_text_by_sentences`. -/
def split_text_by_sentences (ct : Str → Nat) (size : Nat) (text : Str) : List Str :=
  packLoop ct size [] (sentencesOf text)

/-- One processed section, as produced by `PDFProcessor.extract_sections`
(a dict with keys `section_number`, `title`, `content`, `document_type`).
The spec calls this record a LegalUnit. -/
structure LawSection where
  section_number : Str
  title : Str
  content : Str
  document_type : Str
deriving DecidableEq, Repr

/-- One chunk, as produced by `TextChunker.create_chunks`.  The keys
`keywords`, `summary` and `legal_context` are only added later by
`TextChunker.add_metadata`, hence `Option`. -/
structure Chunk where
  id : Str
  section_number : Str
  title : Str
  content : Str
  document_type : Str
  chunk_index : Nat
  total_chunks : Nat
  keywords : Option (List Str)
  summary : Option Str
  legal_context : Option Str
deriving DecidableEq, Repr

/-- Decimal rendering of a natural number (Python f-string interpolation of
an int). -/
def natStr (n : Nat) : Str := (Nat.repr n).data

/-- The chunk id `f"{document_type}_{section_number}_{i}"`. -/
def chunkId (s : LawSection) (i : Nat) : Str :=
  s.document_type ++ '_' :: s.section_number ++ '_' :: natStr i

/-- The body of the `for section in sections` loop of
`TextChunker.create_chunks`: a section whose content token count is within
the chunk size becomes a single chunk, otherwise the content is split by
sentences and each piece becomes one chunk. -/
def chunkSection (ct : Str → Nat) (size : Nat) (s : LawSection) : List Chunk :=
  if ct s.content ≤ size then
    [⟨chunkId s 0, s.section_number, s.title, s.content, s.document_type, 0, 1,
      none, none, none⟩]
  else
    let cs := split_text_by_sentences ct size s.content
    cs.enum.map (fun p =>
      ⟨chunkId s p.1, s.section_number,
        s.title ++ " (Part ".data ++ natStr (p.1 + 1) ++ ")".data,
        p.2, s.document_type, p.1, cs.length, none, none, none⟩)

/-- Model of `TextChunker.create_chunks`. -/
def create_chunks (ct : Str → Nat) (size : Nat) (sections : List LawSection) : List Chunk :=
  (sections.map (chunkSection ct size)).flatten

/-! ### Supporting lemmas for the chunker -/

theorem filter_dropWhile (P Q : Char → Bool) (h : ∀ c, Q c = true → P c = false) :
    ∀ s : Str, (s.dropWhile Q).filter P = s.filter P := by
  intro s
  induction s with
  | nil => rfl
  | cons c cs ih =>
    by_cases hq : Q c = true
    · simp [List.dropWhile_cons, hq, List.filter_cons, h c hq, ih]
    · simp [List.dropWhile_cons, hq]

theorem filter_pyStrip (P : Char → Bool) (h : ∀ c, isWS c = true → P c = false) (s : Str) :
    (pyStrip s).filter P = s.filter P := by
  unfold pyStrip
  rw [List.filter_reverse, filter_dropWhile P isWS h, List.filter_reverse,
    List.reverse_reverse, filter_dropWhile P isWS h]

theorem scrub_pyStrip (s : Str) : scrub (pyStrip s) = scrub s := by
  unfold scrub
  exact filter_pyStrip _ (fun c hc => by simp [hc]) s

theorem scrub_append (a b : Str) : scrub (a ++ b) = scrub a ++ scrub b :=
  List.filter_append _ _

theorem filter_flattenL (P : Char → Bool) :
    ∀ L : List Str, L.flatten.filter P = (L.map (List.filter P)).flatten := by
  intro L
  induction L with
  | nil => rfl
  | cons s L ih => simp [List.flatten_cons, List.filter_append, ih]

theorem flatten_filter_nonempty :
    ∀ L : List Str, (L.filter (fun s => !s.isEmpty)).flatten = L.flatten := by
  intro L
  induction L with
  | nil => rfl
  | cons s L ih =>
    by_cases hs : s.isEmpty = true
    · rw [List.isEmpty_iff.mp hs]
      simp_all [List.filter_cons]
    · simp_all [List.filter_cons]

theorem splitTerms_ne_nil : ∀ s : Str, splitTerms s ≠ [] := by
  intro s
  induction s with
  | nil => simp [splitTerms]
  | cons c cs ih =>
    unfold splitTerms
    by_cases hc : isTerm c = true
    · cases cs with
      | nil => simp [hc]
      | cons d ds =>
        by_cases hd : isTerm d = true
        · simpa [hc, hd] using ih
        · simp [hc, hd]
    · simp only [hc]
      cases h : splitTerms cs <;> simp [hc, h]

theorem flatten_splitTerms :
    ∀ s : Str, (splitTerms s).flatten = s.filter (fun c => !isTerm c) := by
  intro s
  induction s with
  | nil => rfl
  | cons c cs ih =>
    unfold splitTerms
    by_cases hc : isTerm c = true
    · cases cs with
      | nil => simp [hc, List.filter_cons, splitTerms]
      | cons d ds =>
        by_cases hd : isTerm d = true
        · simp [hc, hd, List.filter_cons, ih]
        · simp [hc, hd, List.filter_cons, ih]
    · simp only [hc]
      cases h : splitTerms cs with
      | nil => exact absurd h (splitTerms_ne_nil cs)
      | cons t rest =>
        rw [h] at ih
        simp [List.flatten_cons, List.filter_cons, hc, ← ih]

theorem scrub_nil : scrub [] = [] := rfl

theorem scrub_space_cons (s : Str) : scrub (' ' :: s) = scrub s := by
  simp [scrub, List.filter_cons, isWS, isTerm]

theorem scrub_flatten_packLoop (ct : Str → Nat) (size : Nat) :
    ∀ (ss : List Str) (cur : Str),
      scrub (packLoop ct size cur ss).flatten = scrub cur ++ scrub ss.flatten := by
  intro ss
  induction ss with
  | nil =>
    intro cur
    by_cases hc : cur.isEmpty = true
    · rw [List.isEmpty_iff.mp hc]
      simp [packLoop, scrub_nil]
    · simp [packLoop, hc, scrub_pyStrip, scrub_nil]
  | cons s rest ih =>
    intro cur
    show scrub (packLoop ct size cur (s :: rest)).flatten = _
    rw [packLoop]
    by_cases hfit : ct (if cur.isEmpty then s else cur ++ ' ' :: s) ≤ size
    · rw [if_pos hfit, ih]
      by_cases hc : cur.isEmpty = true
      · rw [List.isEmpty_iff.mp hc]
        simp [scrub_append, scrub_nil]
      · simp [hc, scrub_append, scrub_space_cons]
    · rw [if_neg hfit, List.flatten_append, scrub_append, ih s]
      by_cases hc : cur.isEmpty = true
      · rw [List.isEmpty_iff.mp hc]
        simp [scrub_append, scrub_nil]
      · simp [hc, scrub_pyStrip, scrub_append, scrub_nil]

theorem scrub_split_text (ct : Str → Nat) (size : Nat) (text : Str) :
    scrub (split_text_by_sentences ct size text).flatten = scrub text := by
  rw [split_text_by_sentences, scrub_flatten_packLoop]
  rw [sentencesOf, flatten_filter_nonempty]
  have h1 : scrub ((splitTerms text).map pyStrip).flatten
      = scrub (splitTerms text).flatten := by
    show List.filter _ _ = List.filter _ _
    rw [filter_flattenL, filter_flattenL, List.map_map]
    congr 1
    apply List.map_congr_left
    intro s _
    exact scrub_pyStrip s
  rw [h1, flatten_splitTerms, scrub_nil, List.nil_append]
  show List.filter _ _ = List.filter _ _
  rw [List.filter_filter]
  apply List.filter_congr
  intro c _
  cases hw : isWS c <;> cases ht : isTerm c <;> simp [hw, ht]

theorem chunkSection_map_content_of_split (ct : Str → Nat) (size : Nat) (s : LawSection)
    (h : ¬ ct s.content ≤ size) :
    (chunkSection ct size s).map Chunk.content = split_text_by_sentences ct size s.content := by
  rw [chunkSection, if_neg h, List.map_map]
  exact List.enum_map_snd _

theorem chunkSection_map_index (ct : Str → Nat) (size : Nat) (s : LawSection) :
    (chunkSection ct size s).map Chunk.chunk_index
      = List.range (chunkSection ct size s).length := by
  rw [chunkSection]
  by_cases h : ct s.content ≤ size
  · rw [if_pos h]
    rfl
  · rw [if_neg h, List.map_map, List.length_map, List.enum_length]
    exact List.enum_map_fst _

theorem chunkSection_total (ct : Str → Nat) (size : Nat) (s : LawSection) :
    ∀ c ∈ chunkSection ct size s, c.total_chunks = (chunkSection ct size s).length := by
  intro c hc
  rw [chunkSection] at hc ⊢
  by_cases h : ct s.content ≤ size
  · rw [if_pos h] at hc ⊢
    simp at hc
    rw [hc]
    rfl
  · rw [if_neg h] at hc ⊢
    rw [List.length_map, List.enum_length]
    obtain ⟨p, _, hp⟩ := List.mem_map.mp hc
    rw [← hp]

/-- C1 (amended): concatenating a unit's chunk contents in `chunk_index` order
reproduces the unit body up to whitespace normalization AND removal of the
sentence-terminator characters `.`, `!`, `?` — the sentence splitter
`re.split(r'[.!?]+', ...)` discards the terminators, so they are lost whenever
a unit is split into sentence-based chunks; only whitespace-and-terminator
scrubbed text is preserved exactly. -/
theorem chunk_concat_reconstructs (ct : Str → Nat) (size : Nat) (s : LawSection) :
    scrub ((chunkSection ct size s).map Chunk.content).flatten = scrub s.content := by
  by_cases h : ct s.content ≤ size
  · rw [chunkSection, if_pos h]
    simp
  · rw [chunkSection_map_content_of_split ct size s h, scrub_split_text]

/-- C1 counterexample: for the unit body `"abc. def."` (token counter:
character count, chunk size 5, forcing the sentence-splitting path) the
concatenation of the produced chunk contents is `"abcdef"`, which differs from
the body by more than whitespace: the two `.` characters are gone.  Hence the
claim "differing only in whitespace at chunk boundaries (no other characters
lost or changed)" is false. -/
theorem chunk_concat_cex :
    scrubWS ((chunkSection List.length 5
        ⟨"302".data, "Section 302".data, "abc. def.".data, "penal_code".data⟩).map
          Chunk.content).flatten
      ≠ scrubWS "abc. def.".data := by
  decide

/-- C9: every chunk satisfies `chunk_index < total_chunks`; among a unit's
chunks the maximum `chunk_index` equals `total_chunks - 1`; and a unit whose
body token count is at most the chunk size yields exactly one chunk with
`chunk_index = 0` and `total_chunks = 1`. -/
theorem chunk_index_invariant (ct : Str → Nat) (size : Nat) (s : LawSection) :
    (∀ c ∈ chunkSection ct size s, c.chunk_index < c.total_chunks) ∧
    (chunkSection ct size s ≠ [] →
      ∃ c ∈ chunkSection ct size s, c.chunk_index = c.total_chunks - 1 ∧
        ∀ c' ∈ chunkSection ct size s, c'.chunk_index ≤ c.chunk_index) ∧
    (ct s.content ≤ size →
      chunkSection ct size s
        = [⟨chunkId s 0, s.section_number, s.title, s.content, s.document_type,
            0, 1, none, none, none⟩]) := by
  refine ⟨?_, ?_, ?_⟩
  · intro c hc
    have h1 : c.chunk_index ∈ (chunkSection ct size s).map Chunk.chunk_index :=
      List.mem_map.mpr ⟨c, hc, rfl⟩
    rw [chunkSection_map_index] at h1
    rw [chunkSection_total ct size s c hc]
    exact List.mem_range.mp h1
  · intro hne
    have hlen : 0 < (chunkSection ct size s).length := List.length_pos.mpr hne
    have h1 : (chunkSection ct size s).length - 1
        ∈ (chunkSection ct size s).map Chunk.chunk_index := by
      rw [chunkSection_map_index]
      exact List.mem_range.mpr (by omega)
    obtain ⟨c, hc, hidx⟩ := List.mem_map.mp h1
    refine ⟨c, hc, ?_, ?_⟩
    · rw [hidx, chunkSection_total ct size s c hc]
    · intro c' hc'
      have h2 : c'.chunk_index ∈ (chunkSection ct size s).map Chunk.chunk_index :=
        List.mem_map.mpr ⟨c', hc', rfl⟩
      rw [chunkSection_map_index] at h2
      have := List.mem_range.mp h2
      omega
  · intro h
    rw [chunkSection, if_pos h]

/-- Witness for C9: a concrete small unit (body fits in the chunk size)
yields exactly one chunk with index 0 and total 1. -/
theorem chunk_index_invariant_witness :
    chunkSection List.length 100
        ⟨"302".data, "Section 302".data, "abc. def.".data, "penal_code".data⟩
      = [⟨"penal_code_302_0".data, "302".data, "Section 302".data,
          "abc. def.".data, "penal_code".data, 0, 1, none, none, none⟩] :=
  (chunk_index_invariant List.length 100
    ⟨"302".data, "Section 302".data, "abc. def.".data, "penal_code".data⟩).2.2
    (by decide)

/-! ### `pdf_processor.py`: `clean_text` and `extract_sections`

The regular expressions of the source are translated into explicit scanners.
Scanners whose recursion consumes a variable number of characters per step
take an explicit fuel argument; every step consumes at least one character, so
fuel `length + 1` always suffices, and the top-level wrappers pass exactly
that. -/

/-- Python `\d` (ASCII range). -/
def isDigitC (c : Char) : Bool := '0' ≤ c && c ≤ '9'

/-- An ASCII letter.  Under `re.IGNORECASE` the class `[A-Z]` matches both
cases. -/
def isAsciiLetter (c : Char) : Bool := ('a' ≤ c && c ≤ 'z') || ('A' ≤ c && c ≤ 'Z')

/-- Python `\w` (ASCII range): letters, digits, underscore. -/
def isWordC (c : Char) : Bool := isAsciiLetter c || isDigitC c || c == '_'

/-- The characters kept by the `clean_text` character-class substitution
`re.sub(r'[^\w\s\.\,\;\:\!\?\(\)\[\]\{\}\-\'\"\/]', '', text)`. -/
def isKeptChar (c : Char) : Bool :=
  isWordC c || isWS c || c == '.' || c == ',' || c == ';' || c == ':' || c == '!' ||
    c == '?' || c == '(' || c == ')' || c == '[' || c == ']' ||
    c == Char.ofNat 123 || c == Char.ofNat 125 || c == '-' ||
    c == Char.ofNat 39 || c == Char.ofNat 34 || c == '/'

/-- Model of `re.sub` with pattern `\s+` replaced by a space: collapse every maximal whitespace run to a
single space. -/
def collapseWS : Str → Str
  | [] => []
  | c :: cs =>
    if isWS c then
      match cs with
      | [] => [' ']
      | d :: _ => if isWS d then collapseWS cs else ' ' :: collapseWS cs
    else c :: collapseWS cs

/-- Match a literal prefix; returns the rest on success. -/
def dropLit : Str → Str → Option Str
  | [], s => some s
  | _ :: _, [] => none
  | c :: ps, d :: s => if c == d then dropLit ps s else none

/-- Match the pattern `Page \d+ of \d+` at the head of the text; returns the
rest after the match. -/
def matchPage (cs : Str) : Option Str :=
  match dropLit "Page ".data cs with
  | none => none
  | some s1 =>
    if (s1.takeWhile isDigitC).isEmpty then none
    else
      match dropLit " of ".data (s1.dropWhile isDigitC) with
      | none => none
      | some s2 =>
        if (s2.takeWhile isDigitC).isEmpty then none
        else some (s2.dropWhile isDigitC)

/-- Model of `re.sub` removing `Page \d+ of \d+`: left-to-right non-overlapping
removal.  A match consumes at least eleven characters, so fuel `length`
suffices. -/
def removePageAux : Nat → Str → Str
  | 0, s => s
  | _, [] => []
  | fuel + 1, c :: cs =>
    match matchPage (c :: cs) with
    | some rest => removePageAux fuel rest
    | none => c :: removePageAux fuel cs

def removePageNums (s : Str) : Str := removePageAux s.length s

/-- The dollar anchor of a `re.MULTILINE` pattern: end of string or just before a newline. -/
def dollarOk : Str → Bool
  | [] => true
  | c :: _ => c == '\n'

/-- Greedy search (longest first) for how much of the whitespace run `\s*`
may be consumed so that `$` matches, mirroring regex backtracking. -/
def findDollar (afterD : Str) : Nat → Option Nat
  | 0 => if dollarOk afterD then some 0 else none
  | k + 1 => if dollarOk (afterD.drop (k + 1)) then some (k + 1) else findDollar afterD k

/-- Match `^\d+\s*$` (MULTILINE) at a line-start position; returns the rest
after the match and whether the character before the resumption point is a
newline (so that `^` can match there). -/
def matchDigitLine (cs : Str) : Option (Str × Bool) :=
  if (cs.takeWhile isDigitC).isEmpty then none
  else
    let afterD := cs.dropWhile isDigitC
    let w := afterD.takeWhile isWS
    match findDollar afterD w.length with
    | none => none
    | some k =>
      if k = 0 then some (afterD, false)
      else some (afterD.drop k, dollarOk (afterD.drop (k - 1)) == false)

/-- Model of `re.sub` removing MULTILINE digit-only lines.  `atLS` tracks
whether the current position is at the start of a line of the original
string. -/
def removeDigitLinesAux : Nat → Bool → Str → Str
  | 0, _, s => s
  | _, _, [] => []
  | fuel + 1, atLS, c :: cs =>
    if atLS then
      match matchDigitLine (c :: cs) with
      | some (rest, nls) => removeDigitLinesAux fuel nls rest
      | none => c :: removeDigitLinesAux fuel (c == '\n') cs
    else c :: removeDigitLinesAux fuel (c == '\n') cs

def removeDigitLines (s : Str) : Str := removeDigitLinesAux s.length true s

/-- Model of `PDFProcessor.clean_text`: collapse whitespace, strip `Page N of M`
artifacts, strip digit-only lines, strip characters outside the safe class,
then strip the ends. -/
def clean_text (text : Str) : Str :=
  pyStrip (List.filter isKeptChar (removeDigitLines (removePageNums (collapseWS text))))

/-- Case-insensitive literal prefix match (`re.IGNORECASE`). -/
def dropLitCI : Str → Str → Option Str
  | [], s => some s
  | _ :: _, [] => none
  | c :: ps, d :: s => if c.toLower == d.toLower then dropLitCI ps s else none

/-- Match the heading `kw\s+(\d+[A-Z]?)` (case-insensitive) at the head of
the text.  Returns the captured number — the digit run plus the optional
letter; under `re.IGNORECASE` the class `[A-Z]` also matches a lower-case
letter — and the rest of the text after the capture. -/
def headParse (kw : Str) (cs : Str) : Option (Str × Str) :=
  match dropLitCI kw cs with
  | none => none
  | some s1 =>
    if (s1.takeWhile isWS).isEmpty then none
    else
      let s2 := s1.dropWhile isWS
      let d := s2.takeWhile isDigitC
      if d.isEmpty then none
      else
        match s2.dropWhile isDigitC with
        | [] => some (d, [])
        | e :: s3 => if isAsciiLetter e then some (d ++ [e], s3) else some (d, e :: s3)

/-- Model of `re.finditer` advancing: find the first position at which the heading
matches, returning the parse at that position. -/
def findHead (kw : Str) : Str → Option (Str × Str)
  | [] => none
  | c :: cs =>
    match headParse kw (c :: cs) with
    | some r => some r
    | none => findHead kw cs

/-- Consume the separator `\s*[:\-]?\s*` after the captured number. -/
def dropSep (cs : Str) : Str :=
  match cs.dropWhile isWS with
  | [] => []
  | c :: rest => if c == ':' || c == '-' then rest.dropWhile isWS else c :: rest

/-- The lazy body `(.*?)(?=kw\s+\d+[A-Z]?|$)`: take characters until the
lookahead heading matches (or the text ends); returns the body and the rest
starting at the next heading. -/
def scanBody (kw : Str) : Str → Str × Str
  | [] => ([], [])
  | c :: cs =>
    if (headParse kw (c :: cs)).isSome then ([], c :: cs)
    else
      ((scanBody kw cs).1.cons c, (scanBody kw cs).2)

/-- The `for match in matches` loop of `PDFProcessor.extract_sections`: parse
a heading, skip the separator, take the body up to the next heading, keep the
section only when the stripped raw body is non-empty and longer than 50
characters (the source comment: "Filter out very short sections"), store the
cleaned body as `content`.  One iteration always consumes at least the
heading (keyword, whitespace, digit), so fuel `length + 1` suffices. -/
def extractLoopAux (kw titlePrefix dt : Str) : Nat → Str → List LawSection
  | 0, _ => []
  | fuel + 1, cs =>
    match findHead kw cs with
    | none => []
    | some (num, afterNum) =>
      let pr := scanBody kw (dropSep afterNum)
      let raw := pyStrip pr.1
      let tail := extractLoopAux kw titlePrefix dt fuel pr.2
      if !raw.isEmpty && 50 < raw.length then
        ⟨num, titlePrefix ++ num, clean_text raw, dt⟩ :: tail
      else tail

/-- Python `str.lower()` (ASCII). -/
def lowerStr (s : Str) : Str := s.map Char.toLower

/-- Model of `PDFProcessor.extract_sections`: dispatch on the document type (penal
code sections, constitution articles); unknown types yield no sections. -/
def extract_sections (text document_type : Str) : List LawSection :=
  if lowerStr document_type = "penal_code".data then
    extractLoopAux "section".data "Section ".data "penal_code".data (text.length + 1) text
  else if lowerStr document_type = "constitution".data then
    extractLoopAux "article".data "Article ".data "constitution".data (text.length + 1) text
  else []

/-- The heading candidates of the section-extraction loop, before the length
filter: the same scan as `extractLoopAux` (same `findHead`, separator and
body delimitation, same fuel), pairing each captured number with its RAW
stripped body — exactly what `match.group(1)` and `match.group(2).strip()`
yield per iteration of the source loop, before the
`if section_text and len(section_text) > 50` test. -/
def rawCandidates (kw : Str) : Nat → Str → List (Str × Str)
  | 0, _ => []
  | fuel + 1, cs =>
    match findHead kw cs with
    | none => []
    | some (num, afterNum) =>
      let pr := scanBody kw (dropSep afterNum)
      (num, pyStrip pr.1) :: rawCandidates kw fuel pr.2

theorem extractLoopAux_eq_filter (kw tp dtt : Str) :
    ∀ (fuel : Nat) (cs : Str),
      extractLoopAux kw tp dtt fuel cs
        = ((rawCandidates kw fuel cs).filter
            (fun p => !p.2.isEmpty && decide (50 < p.2.length))).map
            (fun p => ⟨p.1, tp ++ p.1, clean_text p.2, dtt⟩) := by
  intro fuel
  induction fuel with
  | zero => intro cs; rfl
  | succ n ih =>
    intro cs
    rw [extractLoopAux, rawCandidates]
    cases hf : findHead kw cs with
    | none => rfl
    | some r =>
      obtain ⟨num, afterNum⟩ := r
      simp only [List.filter_cons]
      by_cases hg : (!(pyStrip (scanBody kw (dropSep afterNum)).1).isEmpty
          && decide (50 < (pyStrip (scanBody kw (dropSep afterNum)).1).length)) = true
      · rw [if_pos hg, if_pos hg, List.map_cons, ih]
      · rw [if_neg hg, if_neg hg, ih]

/-- C3 (amended): the Segmenter's minimum-length filter is applied to the RAW
matched body (after `.strip()`, before `clean_text`): the emitted units are
EXACTLY the heading candidates whose raw stripped body is non-empty and
STRICTLY longer than 50 characters, each mapped to a record storing the
CLEANED raw body as `content` — whose length may therefore be anything, in
particular shorter than 50 (see the counterexample). -/
theorem extract_sections_length_filter (text dt : Str) :
    extract_sections text dt
      = if lowerStr dt = "penal_code".data then
          ((rawCandidates "section".data (text.length + 1) text).filter
            (fun p => !p.2.isEmpty && decide (50 < p.2.length))).map
            (fun p => ⟨p.1, "Section ".data ++ p.1, clean_text p.2, "penal_code".data⟩)
        else if lowerStr dt = "constitution".data then
          ((rawCandidates "article".data (text.length + 1) text).filter
            (fun p => !p.2.isEmpty && decide (50 < p.2.length))).map
            (fun p => ⟨p.1, "Article ".data ++ p.1, clean_text p.2, "constitution".data⟩)
        else [] := by
  rw [extract_sections]
  by_cases h1 : lowerStr dt = "penal_code".data
  · rw [if_pos h1, if_pos h1]
    exact extractLoopAux_eq_filter _ _ _ _ text
  · rw [if_neg h1, if_neg h1]
    by_cases h2 : lowerStr dt = "constitution".data
    · rw [if_pos h2, if_pos h2]
      exact extractLoopAux_eq_filter _ _ _ _ text
    · rw [if_neg h2, if_neg h2]

/-- C3 counterexample: on the text `"Section 302: "` followed by 51 `'@'`
characters, the raw body has length 51 (so it passes the `len > 50` filter),
but every `'@'` is removed by cleaning, so the Segmenter emits a unit whose
normalized body is EMPTY — the claim that units with normalized body shorter
than 50 characters are dropped is false. -/
theorem extract_sections_cex :
    extract_sections ("Section 302: ".data ++ List.replicate 51 '@') "penal_code".data
      = [⟨"302".data, "Section 302".data, [], "penal_code".data⟩] := by
  decide

/-! ### `gemini_integration.py`: embeddings

The external Gemini call is a parameter `embed : Str → Option (List ℚ)`:
`some v` models a successful `embed_content` call returning vector `v`,
`none` models any per-item exception. -/

/-- The inner `for text in batch` body of `GeminiIntegration.generate_embeddings`:
on success append the returned embedding, on failure append a zero vector of
dimension 768 ("Standard embedding size"). -/
def itemEmbed (embed : Str → Option (List ℚ)) (t : Str) : List ℚ :=
  match embed t with
  | some v => v
  | none => List.replicate 768 0

/-- The batching loop `for i in range(0, len(texts), batch_size)` with
`batch = texts[i:i + batch_size]`: group the texts into consecutive batches
of `n`.  A step consumes a full non-empty batch, so fuel `length` suffices. -/
def toBatchesAux (n : Nat) : Nat → List Str → List (List Str)
  | 0, l => [l]
  | _, [] => []
  | fuel + 1, x :: xs => (x :: xs.take (n - 1)) :: toBatchesAux n fuel (xs.drop (n - 1))

def toBatches (n : Nat) (l : List Str) : List (List Str) := toBatchesAux n l.length l

/-- Model of `GeminiIntegration.generate_embeddings`: process the texts in batches of
10, each text embedded independently with per-item failure isolation. -/
def generate_embeddings (embed : Str → Option (List ℚ)) (texts : List Str) : List (List ℚ) :=
  ((toBatches 10 texts).map (fun b => b.map (itemEmbed embed))).flatten

/-- Model of `GeminiIntegration.generate_embedding_for_query`: a single
`embed_content` call; an exception yields the empty vector. -/
def generate_embedding_for_query (embed : Str → Option (List ℚ)) (q : Str) : List ℚ :=
  match embed q with
  | some v => v
  | none => []

theorem toBatchesAux_flatten (n : Nat) :
    ∀ (fuel : Nat) (l : List Str), l.length ≤ fuel → (toBatchesAux n fuel l).flatten = l := by
  intro fuel
  induction fuel with
  | zero =>
    intro l hl
    rw [Nat.le_zero, List.length_eq_zero] at hl
    rw [hl]
    rfl
  | succ m ih =>
    intro l hl
    cases l with
    | nil => rfl
    | cons x xs =>
      rw [toBatchesAux, List.flatten_cons, ih]
      · rw [List.cons_append, List.take_append_drop]
      · have h1 : (xs.drop (n - 1)).length ≤ xs.length := by
          rw [List.length_drop]
          omega
        simp at hl
        omega

theorem generate_embeddings_eq_map (embed : Str → Option (List ℚ)) (texts : List Str) :
    generate_embeddings embed texts = texts.map (itemEmbed embed) := by
  rw [generate_embeddings, ← List.map_flatten, toBatches, toBatchesAux_flatten 10 texts.length texts le_rfl]

/-- C4: batch embedding is positionally aligned with its input: the output
has the same length as the input, the i-th vector is the embedding of the
i-th text, and a text whose individual embedding call fails contributes a
zero vector of dimension 768 instead of aborting the batch. -/
theorem generate_embeddings_aligned (embed : Str → Option (List ℚ)) (texts : List Str) :
    (generate_embeddings embed texts).length = texts.length ∧
    (∀ i : Nat, (generate_embeddings embed texts)[i]? = (texts[i]?).map (itemEmbed embed)) ∧
    (∀ (i : Nat) (t : Str), texts[i]? = some t → embed t = none →
      (generate_embeddings embed texts)[i]? = some (List.replicate 768 0) ∧
        (List.replicate 768 (0 : ℚ)).length = 768) := by
  rw [generate_embeddings_eq_map]
  refine ⟨List.length_map _ _, ?_, ?_⟩
  · intro i
    exact List.getElem?_map _ texts i
  · intro i t ht hfail
    rw [List.getElem?_map _ texts i, ht]
    refine ⟨?_, List.length_replicate _ _⟩
    show some (itemEmbed embed t) = _
    simp only [itemEmbed, hfail]

/-- Witness for C4: two texts, the second failing, give two aligned vectors
with a zero vector (of length 768) in the failing position. -/
theorem generate_embeddings_aligned_witness :
    (generate_embeddings (fun t => if t = "a".data then some [1] else none)
        ["a".data, "b".data]).length = 2 ∧
    (generate_embeddings (fun t => if t = "a".data then some [1] else none)
        ["a".data, "b".data])[1]? = some (List.replicate 768 0) := by
  have h := generate_embeddings_aligned
    (fun t => if t = "a".data then some [1] else none) ["a".data, "b".data]
  refine ⟨h.1, ?_⟩
  exact (h.2.2 1 "b".data (by decide) (by decide)).1

/-! ### `vector_store.py`

The ChromaDB storage engine is external to the repository; its operations are
modelled from the spec's Retrieval Index contract (§4.4): insert stores
`{id, content, metadata}` alongside the vector with id-collision overwrite,
and `collection.query` returns up to `k` nearest items by vector distance
under an optional metadata equality filter.  A possible backend exception is
injected through an explicit `outcome` parameter (`some err` = the backend
raised); `VectorStore`'s own `try/except` policy around it is translated from
the source. -/

structure Metadata where
  section_number : Str
  title : Str
  document_type : Str
  chunk_index : Nat
  total_chunks : Nat
  keywords : Str
  summary : Str
  legal_context : Str
deriving DecidableEq, Repr

structure Entry where
  id : Str
  content : Str
  metadata : Metadata
  vector : List ℚ
deriving DecidableEq, Repr

abbrev Store := List Entry

/-- Python `', '.join(lst)`. -/
def joinComma (l : List Str) : Str := (l.intersperse ", ".data).flatten

/-- The metadata dict built by `VectorStore.add_documents` for one chunk;
`chunk.get('keywords', [])`, `chunk.get('summary', '')` and
`chunk.get('legal_context', 'general_legal')` use defaults when
`add_metadata` has not filled those keys. -/
def chunkMetadata (c : Chunk) : Metadata :=
  ⟨c.section_number, c.title, c.document_type, c.chunk_index, c.total_chunks,
    joinComma (c.keywords.getD []), c.summary.getD [],
    c.legal_context.getD "general_legal".data⟩

/-- The parallel `ids`/`documents`/`embeddings`/`metadatas` arrays passed to
`collection.add`, paired positionally. -/
def buildEntries (chunks : List Chunk) (embeddings : List (List ℚ)) : List Entry :=
  (chunks.zip embeddings).map (fun p => ⟨p.1.id, p.1.content, chunkMetadata p.1, p.2⟩)

/-- Modelled from the spec: the Retrieval Index insert semantics — "`id`
collisions overwrite (idempotent re-indexing)" (§4.4).  The storage engine
is not part of the repository. -/
def upsert (store : Store) (e : Entry) : Store :=
  if e.id ∈ store.map Entry.id then
    store.map (fun x => if x.id = e.id then e else x)
  else store ++ [e]

/-- Modelled from the spec: `collection.add` over a batch of entries. -/
def collectionAdd (store : Store) (entries : List Entry) : Store :=
  entries.foldl upsert store

/-- Model of `collection.count()`: the number of stored ids. -/
def storeCount (store : Store) : Nat := (store.map Entry.id).dedup.length

/-- A `where` clause as used by the source: equality on `section_number`
and/or `document_type`. -/
structure WhereClause where
  section_number : Option Str
  document_type : Option Str
deriving DecidableEq, Repr

def matchesWhere (w : WhereClause) (e : Entry) : Bool :=
  (match w.section_number with
   | none => true
   | some v => e.metadata.section_number == v) &&
  (match w.document_type with
   | none => true
   | some v => e.metadata.document_type == v)

/-- Modelled from the spec: `collection.query` — "returns up to `k` nearest
items by vector distance, optionally restricted to items whose metadata
matches an equality filter" (§4.4).  `dist` is the engine's distance metric,
kept as a parameter (callers must not assume a fixed metric). -/
def chromaQuery (dist : List ℚ → List ℚ → ℚ) (store : Store) (qv : List ℚ)
    (k : Nat) (filt : Option WhereClause) : List Entry :=
  let matched := match filt with
    | none => store
    | some w => store.filter (matchesWhere w)
  (matched.insertionSort (fun a b => dist qv a.vector ≤ dist qv b.vector)).take k

structure SimResult where
  id : Str
  content : Str
  metadata : Metadata
  similarity_score : ℚ
deriving DecidableEq, Repr

structure ExactResult where
  id : Str
  content : Str
  metadata : Metadata
deriving DecidableEq, Repr

/-- Model of `VectorStore.search_similar`: any backend failure is caught and yields
`[]`; otherwise each returned item is formatted with
`similarity_score = 1 - distance`. -/
def search_similar (outcome : Option Str) (dist : List ℚ → List ℚ → ℚ) (store : Store)
    (query_embedding : List ℚ) (n_results : Nat) (filter_metadata : Option WhereClause) :
    List SimResult :=
  match outcome with
  | some _ => []
  | none =>
    (chromaQuery dist store query_embedding n_results filter_metadata).map
      (fun e => ⟨e.id, e.content, e.metadata, 1 - dist query_embedding e.vector⟩)

/-- Model of `VectorStore.search_by_section`: metadata-filtered query (`n_results=10`,
empty query text whose internal embedding is `emb0`); any backend failure is
caught and yields `[]`. -/
def search_by_section (outcome : Option Str) (dist : List ℚ → List ℚ → ℚ) (store : Store)
    (emb0 : List ℚ) (section_number : Str) (document_type : Option Str) :
    List ExactResult :=
  match outcome with
  | some _ => []
  | none =>
    (chromaQuery dist store emb0 10 (some ⟨some section_number, document_type⟩)).map
      (fun e => ⟨e.id, e.content, e.metadata⟩)

/-- Model of `VectorStore.add_documents`: build the parallel arrays and call
`collection.add`; a backend failure is logged and re-raised
(`Except.error`). -/
def add_documents (store : Store) (outcome : Option Str) (chunks : List Chunk)
    (embeddings : List (List ℚ)) : Except Str Store :=
  match outcome with
  | some e => Except.error e
  | none => Except.ok (collectionAdd store (buildEntries chunks embeddings))

/-! ### Store lemmas -/

theorem ids_upsert_mem (s : Store) (e : Entry) (h : e.id ∈ s.map Entry.id) :
    (upsert s e).map Entry.id = s.map Entry.id := by
  rw [upsert, if_pos h, List.map_map]
  apply List.map_congr_left
  intro x _
  by_cases hx : x.id = e.id
  · simp [hx]
  · simp [hx]

theorem ids_upsert_not_mem (s : Store) (e : Entry) (h : ¬ e.id ∈ s.map Entry.id) :
    (upsert s e).map Entry.id = s.map Entry.id ++ [e.id] := by
  rw [upsert, if_neg h, List.map_append]
  rfl

theorem mem_ids_upsert (s : Store) (e : Entry) (x : Str) (h : x ∈ s.map Entry.id) :
    x ∈ (upsert s e).map Entry.id := by
  by_cases he : e.id ∈ s.map Entry.id
  · rw [ids_upsert_mem s e he]; exact h
  · rw [ids_upsert_not_mem s e he]; exact List.mem_append_left _ h

theorem self_mem_ids_upsert (s : Store) (e : Entry) :
    e.id ∈ (upsert s e).map Entry.id := by
  by_cases he : e.id ∈ s.map Entry.id
  · rw [ids_upsert_mem s e he]; exact he
  · rw [ids_upsert_not_mem s e he]
    exact List.mem_append_right _ (List.mem_singleton.mpr rfl)

theorem mem_ids_collectionAdd (entries : List Entry) :
    ∀ (s : Store) (x : Str), x ∈ s.map Entry.id → x ∈ (collectionAdd s entries).map Entry.id := by
  induction entries with
  | nil => intro s x h; exact h
  | cons a es ih =>
    intro s x h
    exact ih (upsert s a) x (mem_ids_upsert s a x h)

theorem entry_mem_ids_collectionAdd (entries : List Entry) :
    ∀ (s : Store) (e : Entry), e ∈ entries → e.id ∈ (collectionAdd s entries).map Entry.id := by
  induction entries with
  | nil => intro s e h; exact absurd h (List.not_mem_nil e)
  | cons a es ih =>
    intro s e h
    rcases List.mem_cons.mp h with rfl | hmem
    · exact mem_ids_collectionAdd es (upsert s e) e.id (self_mem_ids_upsert s e)
    · exact ih (upsert s a) e hmem

theorem ids_collectionAdd_stable (entries : List Entry) :
    ∀ s : Store, (∀ e ∈ entries, e.id ∈ s.map Entry.id) →
      (collectionAdd s entries).map Entry.id = s.map Entry.id := by
  induction entries with
  | nil => intro s _; rfl
  | cons a es ih =>
    intro s h
    have ha : a.id ∈ s.map Entry.id := h a (List.mem_cons_self a es)
    have h1 : (upsert s a).map Entry.id = s.map Entry.id := ids_upsert_mem s a ha
    have h2 : ∀ e ∈ es, e.id ∈ (upsert s a).map Entry.id := by
      intro e he
      rw [h1]
      exact h e (List.mem_cons_of_mem a he)
    calc (collectionAdd (upsert s a) es).map Entry.id
        = (upsert s a).map Entry.id := ih (upsert s a) h2
      _ = s.map Entry.id := h1

theorem storeCount_collectionAdd_twice (s : Store) (entries : List Entry) :
    storeCount (collectionAdd (collectionAdd s entries) entries)
      = storeCount (collectionAdd s entries) := by
  unfold storeCount
  rw [ids_collectionAdd_stable entries (collectionAdd s entries)
    (fun e he => entry_mem_ids_collectionAdd entries s e he)]

theorem sortTake_spec (dist : List ℚ → List ℚ → ℚ) (qv : List ℚ) (k : Nat) (m : Store) :
    ((m.insertionSort (fun a b => dist qv a.vector ≤ dist qv b.vector)).take k).length
        = min k m.length ∧
    List.Pairwise (fun a b : Entry => dist qv a.vector ≤ dist qv b.vector)
      ((m.insertionSort (fun a b => dist qv a.vector ≤ dist qv b.vector)).take k) ∧
    ∀ e ∈ (m.insertionSort (fun a b => dist qv a.vector ≤ dist qv b.vector)).take k,
      e ∈ m := by
  haveI hTot : IsTotal Entry (fun a b => dist qv a.vector ≤ dist qv b.vector) :=
    ⟨fun a b => le_total _ _⟩
  haveI hTrans : IsTrans Entry (fun a b => dist qv a.vector ≤ dist qv b.vector) :=
    ⟨fun a b c h1 h2 => le_trans h1 h2⟩
  refine ⟨?_, ?_, ?_⟩
  · rw [List.length_take, List.length_insertionSort]
  · exact List.Pairwise.sublist (List.take_sublist k _)
      (List.sorted_insertionSort (fun a b : Entry => dist qv a.vector ≤ dist qv b.vector) m)
  · intro e he
    exact (List.perm_insertionSort _ m).mem_iff.mp (List.mem_of_mem_take he)

theorem chromaQuery_spec (dist : List ℚ → List ℚ → ℚ) (store : Store) (qv : List ℚ)
    (k : Nat) (filt : Option WhereClause) :
    (chromaQuery dist store qv k filt).length ≤ min k store.length ∧
    List.Pairwise (fun a b : Entry => dist qv a.vector ≤ dist qv b.vector)
      (chromaQuery dist store qv k filt) ∧
    ∀ e ∈ chromaQuery dist store qv k filt, e ∈ store := by
  cases filt with
  | none =>
    have h := sortTake_spec dist qv k store
    exact ⟨le_of_eq h.1, h.2.1, h.2.2⟩
  | some w =>
    have h := sortTake_spec dist qv k (store.filter (matchesWhere w))
    refine ⟨?_, h.2.1, fun e he => List.mem_of_mem_filter (h.2.2 e he)⟩
    calc (chromaQuery dist store qv k (some w)).length
        = min k (store.filter (matchesWhere w)).length := h.1
      _ ≤ min k store.length := min_le_min le_rfl (List.length_filter_le _ _)

/-- C5: with a live backend, `search_similar` over an index of `n` items with
limit `k` returns at most `min k n` results, ordered by descending
similarity score, and every result's similarity score equals `1 - distance`
of some stored item's vector from the query vector. -/
theorem search_similar_spec (dist : List ℚ → List ℚ → ℚ) (store : Store) (qv : List ℚ)
    (k : Nat) (filt : Option WhereClause) :
    (search_similar none dist store qv k filt).length ≤ min k store.length ∧
    List.Pairwise (fun a b : SimResult => b.similarity_score ≤ a.similarity_score)
      (search_similar none dist store qv k filt) ∧
    ∀ r ∈ search_similar none dist store qv k filt,
      ∃ e ∈ store, r.similarity_score = 1 - dist qv e.vector := by
  have hss : search_similar none dist store qv k filt
      = (chromaQuery dist store qv k filt).map
          (fun e => ⟨e.id, e.content, e.metadata, 1 - dist qv e.vector⟩) := rfl
  obtain ⟨h1, h2, h3⟩ := chromaQuery_spec dist store qv k filt
  refine ⟨?_, ?_, ?_⟩
  · rw [hss, List.length_map]
    exact h1
  · rw [hss]
    apply List.pairwise_map.mpr
    exact h2.imp (fun h => by simpa using sub_le_sub_left h 1)
  · intro r hr
    rw [hss] at hr
    obtain ⟨e, he, hre⟩ := List.mem_map.mp hr
    exact ⟨e, h3 e he, by rw [← hre]⟩

/-- Witness for C5 at a concrete two-entry index queried with `k = 5`:
the first returned result's score arises as `1 - distance` of a stored
item. -/
theorem search_similar_spec_witness :
    ∃ e ∈ ([⟨"a".data, "A".data,
              ⟨"1".data, "T1".data, "penal_code".data, 0, 1, [], [], []⟩, [3]⟩,
            ⟨"b".data, "B".data,
              ⟨"2".data, "T2".data, "penal_code".data, 0, 1, [], [], []⟩, [1]⟩] : Store),
      (⟨"b".data, "B".data, ⟨"2".data, "T2".data, "penal_code".data, 0, 1, [], [], []⟩,
          1 - (fun (_ v : List ℚ) => v.headD 0) [0] [1]⟩ : SimResult).similarity_score
        = 1 - (fun (_ v : List ℚ) => v.headD 0) [0] e.vector :=
  (search_similar_spec (fun (_ v : List ℚ) => v.headD 0)
    [⟨"a".data, "A".data, ⟨"1".data, "T1".data, "penal_code".data, 0, 1, [], [], []⟩, [3]⟩,
     ⟨"b".data, "B".data, ⟨"2".data, "T2".data, "penal_code".data, 0, 1, [], [], []⟩, [1]⟩]
    [0] 5 none).2.2
    ⟨"b".data, "B".data, ⟨"2".data, "T2".data, "penal_code".data, 0, 1, [], [], []⟩,
      1 - (fun (_ v : List ℚ) => v.headD 0) [0] [1]⟩
    (List.mem_cons_self _ _)

/-- C8: failures are handled asymmetrically: a backend failure during
`add_documents` propagates to the caller as an exception, and on success
every entry of the batch is stored (no silent drops); a backend failure
during `search_similar` or `search_by_section` is caught and yields the
empty result list. -/
theorem insert_query_failure_asymmetry (err : Str) (store : Store) (chunks : List Chunk)
    (embeddings : List (List ℚ)) (dist : List ℚ → List ℚ → ℚ) (qv : List ℚ) (k : Nat)
    (filt : Option WhereClause) (emb0 : List ℚ) (sn : Str) (dt : Option Str) :
    add_documents store (some err) chunks embeddings = Except.error err ∧
    (∀ s : Store, add_documents store none chunks embeddings = Except.ok s →
       ∀ e ∈ buildEntries chunks embeddings, e.id ∈ s.map Entry.id) ∧
    search_similar (some err) dist store qv k filt = [] ∧
    search_by_section (some err) dist store emb0 sn dt = [] := by
  refine ⟨rfl, ?_, rfl, rfl⟩
  intro s hs e he
  have h1 : collectionAdd store (buildEntries chunks embeddings) = s :=
    Except.ok.inj hs
  rw [← h1]
  exact entry_mem_ids_collectionAdd _ store e he

/-- Witness for C8: a concrete failing insert propagates the error, while a
concrete successful insert stores the batch entry's id. -/
theorem insert_query_failure_asymmetry_witness :
    add_documents [] (some "boom".data)
        [⟨"c1".data, "1".data, "T".data, "x".data, "penal_code".data, 0, 1, none, none, none⟩]
        [[0]] = Except.error "boom".data ∧
    (⟨"c1".data, "x".data,
        ⟨"1".data, "T".data, "penal_code".data, 0, 1, [], [], "general_legal".data⟩,
        [0]⟩ : Entry).id ∈
      (collectionAdd []
        (buildEntries
          [⟨"c1".data, "1".data, "T".data, "x".data, "penal_code".data, 0, 1, none, none, none⟩]
          [[0]])).map Entry.id := by
  have h := insert_query_failure_asymmetry "boom".data []
    [⟨"c1".data, "1".data, "T".data, "x".data, "penal_code".data, 0, 1, none, none, none⟩]
    [[0]] (fun _ _ => 0) [] 5 none [] [] none
  exact ⟨h.1, h.2.1 _ rfl _ (by decide)⟩

/-! ### `rag_system.py`

The Gemini client and the answer generator are parameters (`embed`, `gen`),
as is the possible backend exception of the store (`searchOutcome`), matching
the error-handling translation of `vector_store.py` above.  Python dicts with
optional keys (`query`, `error`) are records with `Option` fields. -/

/-- One element of the `sources` list of an answer dict.
`similarity_score` is present in `query` results and absent in
`search_section` results. -/
structure SourceRec where
  section_number : Str
  title : Str
  document_type : Str
  similarity_score : Option ℚ
  content_preview : Str
deriving DecidableEq, Repr

/-- The dict returned by `PakistaniLawRAG.query` / `search_section`. -/
structure QueryAnswer where
  answer : Str
  sources : List SourceRec
  query_field : Option Str
  error_field : Option Str
deriving DecidableEq, Repr

/-- The content preview: the first 200 characters, with an ellipsis appended when the content is longer. -/
def contentPreview (c : Str) : Str :=
  if 200 < c.length then c.take 200 ++ "...".data else c

namespace PakistaniLawRAG

/-- Model of `PakistaniLawRAG.query`: embed the question; an empty query embedding
short-circuits with an apology and an error, touching neither the index nor
the generator; an empty retrieval yields a no-results error; otherwise the
generated answer is wrapped with sources and the query echo. -/
def query (embed : Str → Option (List ℚ)) (dist : List ℚ → List ℚ → ℚ)
    (searchOutcome : Option Str) (store : Store) (gen : Str → List SimResult → Str)
    (question : Str) (n_results : Nat) (document_type : Option Str) : QueryAnswer :=
  let query_embedding := generate_embedding_for_query embed question
  if query_embedding.isEmpty then
    ⟨"Sorry, I could not process your question.".data, [], none,
      some "Failed to generate query embedding".data⟩
  else
    let filter_metadata := document_type.map (fun dt => WhereClause.mk none (some dt))
    let similar_docs :=
      search_similar searchOutcome dist store query_embedding n_results filter_metadata
    if similar_docs.isEmpty then
      ⟨"I could not find relevant information to answer your question.".data, [], none,
        some "No relevant documents found".data⟩
    else
      ⟨gen question similar_docs,
        similar_docs.map (fun d =>
          ⟨d.metadata.section_number, d.metadata.title, d.metadata.document_type,
            some d.similarity_score, contentPreview d.content⟩),
        some question, none⟩

/-- Model of `PakistaniLawRAG.search_section`: exact lookup through
`VectorStore.search_by_section`; empty results yield a not-found answer with
an error; otherwise the chunk contents are concatenated in the order the
backend returned them, prefixed with a fixed line. -/
def search_section (outcome : Option Str) (dist : List ℚ → List ℚ → ℚ) (store : Store)
    (emb0 : List ℚ) (section_number : Str) (document_type : Option Str) : QueryAnswer :=
  let results := search_by_section outcome dist store emb0 section_number document_type
  if results.isEmpty then
    ⟨"Section ".data ++ section_number ++ " not found.".data, [], none,
      some "Section not found".data⟩
  else
    let combined := (results.map (fun r => r.content ++ "\n\n".data)).flatten
    ⟨"Here is the content of Section ".data ++ section_number ++ ":\n\n".data ++ combined,
      results.map (fun r =>
        ⟨r.metadata.section_number, r.metadata.title, r.metadata.document_type,
          none, contentPreview r.content⟩),
      some ("Section ".data ++ section_number), none⟩

/-- Model of `PakistaniLawRAG.setup_database` (the indexing slice): skip when the
index is already populated and no rebuild is forced; re-derive sections
(`sections` stands for the unchanged processed documents), chunk them, enrich
metadata (`addMeta` stands for `TextChunker.add_metadata`, which only fills
the `keywords`/`summary`/`legal_context` keys), embed the chunk contents and
insert everything into the store.  Returns the success flag and the new
store state. -/
def setup_database (store : Store) (sections : List LawSection) (ct : Str → Nat)
    (size : Nat) (embed : Str → Option (List ℚ)) (addMeta : Chunk → Chunk)
    (force_rebuild : Bool) : Bool × Store :=
  if 0 < storeCount store ∧ force_rebuild = false then (true, store)
  else if sections.isEmpty then (false, store)
  else
    let chunks := (create_chunks ct size sections).map addMeta
    let embeddings := generate_embeddings embed (chunks.map Chunk.content)
    if embeddings.isEmpty then (false, store)
    else (true, collectionAdd store (buildEntries chunks embeddings))

end PakistaniLawRAG

/-- C2: running the setup pipeline twice with `force_rebuild` over the same
(unchanged) sections leaves the index count unchanged, because insertion with
an already-present chunk id overwrites the stored entry instead of
duplicating or failing (second conjunct). -/
theorem setup_database_idempotent (store : Store) (sections : List LawSection)
    (ct : Str → Nat) (size : Nat) (embed : Str → Option (List ℚ)) (addMeta : Chunk → Chunk) :
    storeCount (PakistaniLawRAG.setup_database
        (PakistaniLawRAG.setup_database store sections ct size embed addMeta true).2
        sections ct size embed addMeta true).2
      = storeCount (PakistaniLawRAG.setup_database store sections ct size embed addMeta true).2 ∧
    (∀ (s : Store) (e : Entry), e.id ∈ s.map Entry.id →
      storeCount (upsert s e) = storeCount s ∧ e ∈ upsert s e) := by
  constructor
  · by_cases hs : sections.isEmpty
    · simp [PakistaniLawRAG.setup_database, hs]
    · by_cases he : generate_embeddings embed
          (List.map (Chunk.content ∘ addMeta) (create_chunks ct size sections)) = []
      · simp [PakistaniLawRAG.setup_database, hs, he]
      · simp [PakistaniLawRAG.setup_database, hs, he]
        exact storeCount_collectionAdd_twice store _
  · intro s e h
    constructor
    · unfold storeCount
      rw [ids_upsert_mem s e h]
    · rw [upsert, if_pos h]
      obtain ⟨x, hx, hxe⟩ := List.mem_map.mp h
      exact List.mem_map.mpr ⟨x, hx, by simp [hxe]⟩

/-- Witness for C2: overwriting an entry whose id `"a"` is already present
keeps the count and stores the new entry. -/
theorem setup_database_idempotent_witness :
    storeCount (upsert
        [⟨"a".data, "x".data, ⟨"1".data, "T".data, "penal_code".data, 0, 1, [], [], []⟩, []⟩]
        ⟨"a".data, "y".data, ⟨"1".data, "T".data, "penal_code".data, 0, 1, [], [], []⟩, [1]⟩)
      = storeCount
        [⟨"a".data, "x".data, ⟨"1".data, "T".data, "penal_code".data, 0, 1, [], [], []⟩, []⟩] ∧
    (⟨"a".data, "y".data, ⟨"1".data, "T".data, "penal_code".data, 0, 1, [], [], []⟩, [1]⟩ : Entry)
      ∈ upsert
        [⟨"a".data, "x".data, ⟨"1".data, "T".data, "penal_code".data, 0, 1, [], [], []⟩, []⟩]
        ⟨"a".data, "y".data, ⟨"1".data, "T".data, "penal_code".data, 0, 1, [], [], []⟩, [1]⟩ :=
  (setup_database_idempotent [] [] (fun _ => 0) 0 (fun _ => none) id).2
    [⟨"a".data, "x".data, ⟨"1".data, "T".data, "penal_code".data, 0, 1, [], [], []⟩, []⟩]
    ⟨"a".data, "y".data, ⟨"1".data, "T".data, "penal_code".data, 0, 1, [], [], []⟩, [1]⟩
    (by decide)

/-- C7: when the query embedding comes back empty, `query` returns the
apology answer with empty sources and the embedding-failure error.  The
result does not depend on the store, the distance metric, the backend
outcome or the generator — all universally quantified and absent from the
right-hand side — so no retrieval or generation is performed. -/
theorem query_embed_failure (embed : Str → Option (List ℚ)) (dist : List ℚ → List ℚ → ℚ)
    (searchOutcome : Option Str) (store : Store) (gen : Str → List SimResult → Str)
    (question : Str) (n_results : Nat) (document_type : Option Str)
    (h : generate_embedding_for_query embed question = []) :
    PakistaniLawRAG.query embed dist searchOutcome store gen question n_results document_type
      = ⟨"Sorry, I could not process your question.".data, [], none,
          some "Failed to generate query embedding".data⟩ := by
  simp [PakistaniLawRAG.query, h]

/-- Witness for C7: an embedding service that always fails yields the
apology record on a concrete question, with a concrete populated store. -/
theorem query_embed_failure_witness :
    PakistaniLawRAG.query (fun _ => none) (fun _ _ => 0) none
        [⟨"a".data, "x".data, ⟨"1".data, "T".data, "penal_code".data, 0, 1, [], [], []⟩, []⟩]
        (fun _ _ => "generated".data) "what is section 302".data 5 none
      = ⟨"Sorry, I could not process your question.".data, [], none,
          some "Failed to generate query embedding".data⟩ :=
  query_embed_failure (fun _ => none) (fun _ _ => 0) none
    [⟨"a".data, "x".data, ⟨"1".data, "T".data, "penal_code".data, 0, 1, [], [], []⟩, []⟩]
    (fun _ _ => "generated".data) "what is section 302".data 5 none rfl

theorem search_by_section_length (dist : List ℚ → List ℚ → ℚ) (store : Store)
    (emb0 : List ℚ) (sn : Str) (dt : Option Str) :
    (search_by_section none dist store emb0 sn dt).length
      = min 10 (store.filter (matchesWhere ⟨some sn, dt⟩)).length := by
  show ((chromaQuery dist store emb0 10 (some ⟨some sn, dt⟩)).map _).length = _
  rw [List.length_map]
  exact (sortTake_spec dist emb0 10 (store.filter (matchesWhere ⟨some sn, dt⟩))).1

/-- C6 (amended): `search_section` retrieves AT MOST TEN of the chunks whose
metadata `section_number` matches (the source passes a fixed `n_results=10`
to the backend query), concatenates their contents in the order the backend
query returned them — by vector distance of each chunk's vector from the
backend's embedding of the empty query text, NOT by `chunk_index` — into an
answer prefixed with the fixed "Here is the content of Section N" line, sets
the `query` field, no error, and no repository embedding or generation call
occurs (neither is a parameter of the function); when no chunk matches, it
returns the not-found answer with empty sources and the error field set. -/
theorem search_section_spec (dist : List ℚ → List ℚ → ℚ) (store : Store)
    (emb0 : List ℚ) (sn : Str) (dt : Option Str) :
    (store.filter (matchesWhere ⟨some sn, dt⟩) = [] →
      PakistaniLawRAG.search_section none dist store emb0 sn dt
        = ⟨"Section ".data ++ sn ++ " not found.".data, [], none,
            some "Section not found".data⟩) ∧
    (store.filter (matchesWhere ⟨some sn, dt⟩) ≠ [] →
      (PakistaniLawRAG.search_section none dist store emb0 sn dt).answer
          = "Here is the content of Section ".data ++ sn ++ ":\n\n".data ++
            ((search_by_section none dist store emb0 sn dt).map
              (fun r => r.content ++ "\n\n".data)).flatten ∧
      (PakistaniLawRAG.search_section none dist store emb0 sn dt).sources.length
          = min 10 (store.filter (matchesWhere ⟨some sn, dt⟩)).length ∧
      (PakistaniLawRAG.search_section none dist store emb0 sn dt).error_field = none ∧
      (PakistaniLawRAG.search_section none dist store emb0 sn dt).query_field
          = some ("Section ".data ++ sn)) := by
  constructor
  · intro hempty
    have h0 : (search_by_section none dist store emb0 sn dt).length = 0 := by
      rw [search_by_section_length, hempty]
      rfl
    have hnil := List.length_eq_zero.mp h0
    show (if (search_by_section none dist store emb0 sn dt).isEmpty then _ else _) = _
    rw [hnil]
    rfl
  · intro hne
    have hpos : 0 < (search_by_section none dist store emb0 sn dt).length := by
      rw [search_by_section_length]
      have := List.length_pos.mpr hne
      omega
    have hf : (search_by_section none dist store emb0 sn dt).isEmpty = false :=
      List.isEmpty_eq_false.mpr (List.ne_nil_of_length_pos hpos)
    have hred : PakistaniLawRAG.search_section none dist store emb0 sn dt
        = ⟨"Here is the content of Section ".data ++ sn ++ ":\n\n".data ++
            ((search_by_section none dist store emb0 sn dt).map
              (fun r => r.content ++ "\n\n".data)).flatten,
            (search_by_section none dist store emb0 sn dt).map (fun r =>
              ⟨r.metadata.section_number, r.metadata.title, r.metadata.document_type,
                none, contentPreview r.content⟩),
            some ("Section ".data ++ sn), none⟩ := by
      show (if (search_by_section none dist store emb0 sn dt).isEmpty then _ else _) = _
      rw [hf]
      rfl
    refine ⟨by rw [hred], ?_, by rw [hred], by rw [hred]⟩
    rw [hred]
    show ((search_by_section none dist store emb0 sn dt).map _).length = _
    rw [List.length_map, search_by_section_length]

/-- Witness for C6 (amended), on a concrete one-chunk index. -/
theorem search_section_spec_witness :
    (PakistaniLawRAG.search_section none (fun (_ _ : List ℚ) => (0 : ℚ))
        [⟨"a".data, "body text".data,
            ⟨"302".data, "T".data, "penal_code".data, 0, 1, [], [], []⟩, []⟩]
        [] "302".data none).sources.length
      = min 10
          (([⟨"a".data, "body text".data,
              ⟨"302".data, "T".data, "penal_code".data, 0, 1, [], [], []⟩, []⟩] : Store).filter
            (matchesWhere ⟨some "302".data, none⟩)).length :=
  ((search_section_spec (fun (_ _ : List ℚ) => (0 : ℚ))
    [⟨"a".data, "body text".data,
        ⟨"302".data, "T".data, "penal_code".data, 0, 1, [], [], []⟩, []⟩]
    [] "302".data none).2 (by decide)).2.1

/-- C6 counterexample: (i) with eleven indexed chunks sharing
`section_number = "302"`, `search_section` returns only ten sources, so it
does not retrieve EVERY matching chunk; (ii) with two chunks whose backend
distance order is the reverse of their `chunk_index` order, the combined
answer concatenates content "B" (`chunk_index = 1`) before content "A"
(`chunk_index = 0`), so the concatenation is not in `chunk_index` order. -/
theorem search_section_cex :
    (PakistaniLawRAG.search_section none (fun (_ _ : List ℚ) => (0 : ℚ))
        ((List.range 11).map (fun i =>
          ⟨natStr i, "x".data, ⟨"302".data, "T".data, "penal_code".data, i, 11, [], [], []⟩,
            []⟩))
        [] "302".data none).sources.length = 10 ∧
    (((List.range 11).map (fun i =>
        (⟨natStr i, "x".data, ⟨"302".data, "T".data, "penal_code".data, i, 11, [], [], []⟩,
          []⟩ : Entry))).filter (matchesWhere ⟨some "302".data, none⟩)).length = 11 ∧
    (PakistaniLawRAG.search_section none (fun (_ v : List ℚ) => v.headD 0)
        [⟨"a".data, "A".data, ⟨"302".data, "T".data, "penal_code".data, 0, 2, [], [], []⟩, [1]⟩,
         ⟨"b".data, "B".data, ⟨"302".data, "T".data, "penal_code".data, 1, 2, [], [], []⟩, [0]⟩]
        [] "302".data none).answer
      = "Here is the content of Section 302:\n\nB\n\nA\n\n".data := by
  decide

/-- The shape invariant of an answer dict: the `error` key is present exactly
when `sources` is empty, and a success additionally carries the `query`
key. -/
def answerWellFormed (qa : QueryAnswer) : Prop :=
  (qa.error_field.isSome ↔ qa.sources = []) ∧
  (qa.error_field = none → qa.sources ≠ [] ∧ qa.query_field.isSome)

theorem query_wellFormed (embed : Str → Option (List ℚ)) (dist : List ℚ → List ℚ → ℚ)
    (searchOutcome : Option Str) (store : Store) (gen : Str → List SimResult → Str)
    (question : Str) (n_results : Nat) (document_type : Option Str) :
    answerWellFormed
      (PakistaniLawRAG.query embed dist searchOutcome store gen question n_results
        document_type) := by
  unfold PakistaniLawRAG.query
  by_cases h1 : (generate_embedding_for_query embed question).isEmpty
  · simp [h1, answerWellFormed]
  · simp only [h1, Bool.false_eq_true, if_false]
    by_cases h2 : (search_similar searchOutcome dist store
        (generate_embedding_for_query embed question) n_results
        (document_type.map (fun dt => WhereClause.mk none (some dt)))).isEmpty
    · simp [h2, answerWellFormed]
    · simp only [h2, Bool.false_eq_true, if_false]
      have hne : search_similar searchOutcome dist store
          (generate_embedding_for_query embed question) n_results
          (document_type.map (fun dt => WhereClause.mk none (some dt))) ≠ [] :=
        List.isEmpty_eq_false.mp (Bool.eq_false_iff.mpr h2)
      constructor
      · constructor
        · intro hcontr
          exact absurd hcontr (by simp)
        · intro hcontr
          have := List.map_eq_nil_iff.mp hcontr
          exact absurd this hne
      · intro _
        refine ⟨?_, by simp⟩
        intro hcontr
        exact absurd (List.map_eq_nil_iff.mp hcontr) hne

theorem search_section_wellFormed (outcome : Option Str) (dist : List ℚ → List ℚ → ℚ)
    (store : Store) (emb0 : List ℚ) (sn : Str) (dt : Option Str) :
    answerWellFormed (PakistaniLawRAG.search_section outcome dist store emb0 sn dt) := by
  unfold PakistaniLawRAG.search_section
  by_cases h1 : (search_by_section outcome dist store emb0 sn dt).isEmpty
  · simp [h1, answerWellFormed]
  · simp only [h1, Bool.false_eq_true, if_false]
    have hne : search_by_section outcome dist store emb0 sn dt ≠ [] :=
      List.isEmpty_eq_false.mp (Bool.eq_false_iff.mpr h1)
    constructor
    · constructor
      · intro hcontr
        exact absurd hcontr (by simp)
      · intro hcontr
        exact absurd (List.map_eq_nil_iff.mp hcontr) hne
    · intro _
      refine ⟨?_, by simp⟩
      intro hcontr
      exact absurd (List.map_eq_nil_iff.mp hcontr) hne

/-- C10: every answer returned by `query` or `search_section` carries the
`error` key exactly when its `sources` list is empty, and every success
carries a non-empty `sources` list, the `query` key and no `error` key. -/
theorem answer_invariant (embed : Str → Option (List ℚ)) (dist : List ℚ → List ℚ → ℚ)
    (searchOutcome : Option Str) (store : Store) (gen : Str → List SimResult → Str)
    (question : Str) (n_results : Nat) (document_type : Option Str)
    (outcome2 : Option Str) (dist2 : List ℚ → List ℚ → ℚ) (store2 : Store)
    (emb0 : List ℚ) (sn : Str) (dt2 : Option Str) :
    answerWellFormed
      (PakistaniLawRAG.query embed dist searchOutcome store gen question n_results
        document_type) ∧
    answerWellFormed (PakistaniLawRAG.search_section outcome2 dist2 store2 emb0 sn dt2) :=
  ⟨query_wellFormed embed dist searchOutcome store gen question n_results document_type,
   search_section_wellFormed outcome2 dist2 store2 emb0 sn dt2⟩

/-- Witness for C10: a concrete successful query has non-empty sources and a
`query` key. -/
theorem answer_invariant_witness :
    (PakistaniLawRAG.query (fun _ => some [1]) (fun (_ _ : List ℚ) => (0 : ℚ)) none
        [⟨"a".data, "x".data, ⟨"1".data, "T".data, "penal_code".data, 0, 1, [], [], []⟩, []⟩]
        (fun _ _ => "generated".data) "q".data 5 none).sources ≠ [] ∧
    (PakistaniLawRAG.query (fun _ => some [1]) (fun (_ _ : List ℚ) => (0 : ℚ)) none
        [⟨"a".data, "x".data, ⟨"1".data, "T".data, "penal_code".data, 0, 1, [], [], []⟩, []⟩]
        (fun _ _ => "generated".data) "q".data 5 none).query_field.isSome :=
  ((answer_invariant (fun _ => some [1]) (fun (_ _ : List ℚ) => (0 : ℚ)) none
      [⟨"a".data, "x".data, ⟨"1".data, "T".data, "penal_code".data, 0, 1, [], [], []⟩, []⟩]
      (fun _ _ => "generated".data) "q".data 5 none
      none (fun (_ _ : List ℚ) => (0 : ℚ)) [] [] "302".data none).1).2 (by decide)
